import Mathlib

/-!
Verification of the filtered-pagination-and-reconciliation engine of the
Prosal_Supabase repository.

The development shallowly embeds the Python sources:
  * `results_compre_Lawrence.py` / `schema_retrevie.py` — the reconciliation
    engine (`find_match` and the mismatch computation of `main`);
  * `award_table/award_table_filter.py` — `AwardsQuery` and
    `get_filtered_awards` (Supabase range-offset pagination over a filtered
    table);
  * `notices_table/table_filter_Lawrence.py` — `get_filtered_notices`;
  * `testing.py` — `highergov_get_all_awards` / `highergov_get_all_opportunities`
    (page-number pagination with a short-page termination test) and the
    NAICS/PSC verification step of `get_filtered_opportunities`;
  * `highergov_api.py` — `get_all_opportunities_for_searchid` (page-number
    pagination with empty-page / next-link / page-cap termination).

Loops are modelled with explicit fuel: a loop that would run forever in the
source returns `none` for every fuel.  Page requests are fallible
(`Except String`), modelling `requests.raise_for_status` and Supabase errors.
-/

namespace Prosal

/-! ## Reconciliation engine (results_compre_Lawrence.py, schema_retrevie.py)

An opportunity is reduced to its Identity Set, a Python `set` of identifier
strings; we model it as a `List String` with membership semantics. -/

/-- `opportunity.intersection(other)` is truthy iff the two identifier sets
share an element. -/
def setsIntersect (a b : List String) : Bool :=
  a.any (fun x => b.contains x)

/-- `find_match` of `results_compre_Lawrence.py` (identical in
`schema_retrevie.py`): scan `other_opportunities` for any record whose
Identity Set intersects `opportunity` non-emptily. -/
def find_match (opportunity : List String) (other_opportunities : List (List String)) : Bool :=
  other_opportunities.any (fun other => setsIntersect opportunity other)

/-- `main`: `mismatch_records_csv = [op for op in csv_ops if not find_match(op, results_ops)]`. -/
def mismatchRecords (ours theirs : List (List String)) : List (List String) :=
  ours.filter (fun op => !find_match op theirs)

/-- `main`: `total_mismatches = mismatches_csv + mismatches_results`. -/
def totalMismatches (as bs : List (List String)) : Nat :=
  (mismatchRecords as bs).length + (mismatchRecords bs as).length

theorem setsIntersect_iff (a b : List String) :
    setsIntersect a b = true ↔ ∃ x ∈ a, x ∈ b := by
  simp [setsIntersect]

theorem find_match_iff (op : List String) (others : List (List String)) :
    find_match op others = true ↔ ∃ other ∈ others, ∃ x ∈ op, x ∈ other := by
  simp [find_match, setsIntersect]

theorem mem_mismatchRecords_iff (r : List String) (as bs : List (List String)) :
    r ∈ mismatchRecords as bs ↔ r ∈ as ∧ find_match r bs = false := by
  simp [mismatchRecords]

theorem find_match_nil (others : List (List String)) :
    find_match [] others = false := by
  simp [find_match, setsIntersect]

theorem find_match_self {r : List String} {as : List (List String)}
    (hr : r ≠ []) (hmem : r ∈ as) : find_match r as = true := by
  rcases r with _ | ⟨x, xs⟩
  · exact absurd rfl hr
  · refine (find_match_iff _ _).2 ⟨x :: xs, hmem, x, ?_, ?_⟩ <;> simp

/-! ## Pagination loops

Two distinct protocols appear in the sources:
  * the Supabase store-style loop of `get_filtered_awards` /
    `get_filtered_notices`: request `range(offset, offset + limit - 1)`,
    break when the page is empty, advance `offset` by `limit`;
  * the HigherGov API-style loop of `highergov_get_all_awards` /
    `highergov_get_all_opportunities`: request page `page_number`, extend the
    accumulator, break when the page holds strictly fewer records than
    `page_size`, advance `page_number` by one.

Each loop consults an oracle for the page request; `.error e` models a raised
`requests.HTTPError` / Supabase `APIError` propagating out of the loop.
`none` means the fuel ran out, i.e. the loop had not terminated after `fuel`
iterations. -/

/-- Store-style pagination loop body of `get_filtered_awards`
(`award_table_filter.py` lines 57-137) and `get_filtered_notices`
(`table_filter_Lawrence.py` lines 32-132): `exec_` maps a range offset to the
page the backing store serves for it. -/
def storeLoopAux {α : Type} (exec_ : Nat → Except String (List α)) (limit : Nat) :
    Nat → Nat → List α → Option (Except String (List α))
  | 0, _, _ => none
  | fuel + 1, offset, acc =>
    match exec_ offset with
    | .error e => some (.error e)
    | .ok page =>
      if page.isEmpty then some (.ok acc)
      else storeLoopAux exec_ limit fuel (offset + limit) (acc ++ page)

/-- The page a fixed, unchanging backing store serves for
`range(offset, offset + limit - 1)` over result set `data` (PostgREST ranges
slice the filtered result set in its natural order). -/
def supaPages {α : Type} (data : List α) (limit : Nat) : Nat → Except String (List α) :=
  fun offset => .ok ((data.drop offset).take limit)

/-- API-style pagination loop body of `highergov_get_all_awards`
(`testing.py` lines 69-107) and `highergov_get_all_opportunities`
(`testing.py` lines 162-195): `pages` maps a page number (starting at 1) to
the response; records are accumulated before the short-page test
`len(results) < page_size`. -/
def hgLoopAux {α : Type} (pages : Nat → Except String (List α)) (pageSize : Int) :
    Nat → Nat → List α → Option (Except String (List α))
  | 0, _, _ => none
  | fuel + 1, pageNumber, acc =>
    match pages pageNumber with
    | .error e => some (.error e)
    | .ok results =>
      if (results.length : Int) < pageSize then some (.ok (acc ++ results))
      else hgLoopAux pages pageSize fuel (pageNumber + 1) (acc ++ results)

/-- The page a fixed, unchanging API result set `data` serves for page number
`n` at page size `pageSize` (1-based page numbers). -/
def hgListPages {α : Type} (data : List α) (pageSize : Nat) : Nat → Except String (List α) :=
  fun n => .ok ((data.drop ((n - 1) * pageSize)).take pageSize)

/-- `highergov_get_all_awards` (`testing.py` lines 9-107): validation
(`ValueError` when the API key is missing or `page_size > 100`) followed by
the page-number loop starting at page 1 with an empty accumulator. -/
def highergov_get_all_awards {α : Type} (apiKey : String)
    (pages : Nat → Except String (List α)) (pageSize : Int) (fuel : Nat) :
    Except String (Option (Except String (List α))) :=
  if apiKey = "" then .error "API key is required"
  else if 100 < pageSize then .error "page_size cannot exceed 100"
  else .ok (hgLoopAux pages pageSize fuel 1 [])

/-- `highergov_get_all_opportunities` (`testing.py` lines 109-195): same
validation and loop as `highergov_get_all_awards`, against the opportunity
endpoint. -/
def highergov_get_all_opportunities {α : Type} (apiKey : String)
    (pages : Nat → Except String (List α)) (pageSize : Int) (fuel : Nat) :
    Except String (Option (Except String (List α))) :=
  if apiKey = "" then .error "API key is required"
  else if 100 < pageSize then .error "page_size cannot exceed 100"
  else .ok (hgLoopAux pages pageSize fuel 1 [])

/-- One response of the opportunity endpoint as read by
`get_all_opportunities_for_searchid`: the `results` list and whether
`links.next` is present (truthy). -/
structure OppResponse (α : Type) where
  results : List α
  hasNext : Bool

/-- Loop body of `get_all_opportunities_for_searchid` (`highergov_api.py`
lines 106-129): break on an empty `results` list before accumulating,
otherwise accumulate, then break when `links.next` is absent or
`page_number >= max_page_number`. -/
def searchidLoopAux {α : Type} (resp : Nat → OppResponse α) (maxPageNumber : Nat) :
    Nat → Nat → List α → Option (List α)
  | 0, _, _ => none
  | fuel + 1, pageNumber, acc =>
    let results := (resp pageNumber).results
    if results.isEmpty then some acc
    else if !(resp pageNumber).hasNext || decide (maxPageNumber ≤ pageNumber) then
      some (acc ++ results)
    else searchidLoopAux resp maxPageNumber fuel (pageNumber + 1) (acc ++ results)

/-- `get_all_opportunities_for_searchid` starts at page 1 with an empty
accumulator (`page_size` is forwarded to the API but never consulted by the
loop's termination tests). -/
def get_all_opportunities_for_searchid {α : Type} (resp : Nat → OppResponse α)
    (maxPageNumber : Nat) (fuel : Nat) : Option (List α) :=
  searchidLoopAux resp maxPageNumber fuel 1 []

/-! ### Completeness of the two loops over a fixed backing data set -/

theorem storeLoop_fixed_complete {α : Type} (data : List α) (limit : Nat) (hl : 1 ≤ limit) :
    ∀ fuel offset acc, data.length - offset + 1 ≤ fuel →
      storeLoopAux (supaPages data limit) limit fuel offset acc
        = some (.ok (acc ++ data.drop offset)) := by
  intro fuel
  induction fuel with
  | zero => intro offset acc h; omega
  | succ f ih =>
    intro offset acc h
    by_cases hd : data.drop offset = []
    · simp [storeLoopAux, supaPages, hd]
    · have hlt : offset < data.length := by
        by_contra hle
        exact hd (List.drop_eq_nil_iff.2 (by omega))
      have hne : ((data.drop offset).take limit).isEmpty = false := by
        rcases limit with _ | m
        · omega
        · rcases List.exists_cons_of_ne_nil hd with ⟨x, xs, hx⟩
          simp [hx]
      rw [storeLoopAux]
      simp only [supaPages, hne, Bool.false_eq_true, if_false]
      rw [ih (offset + limit) (acc ++ (data.drop offset).take limit) (by omega)]
      rw [List.append_assoc]
      have hdd : data.drop (offset + limit) = (data.drop offset).drop limit := by
        rw [List.drop_drop, Nat.add_comm]
      rw [hdd, List.take_append_drop]

theorem hgLoop_fixed_complete {α : Type} (data : List α) (pageSize : Nat) (hP : 1 ≤ pageSize) :
    ∀ fuel n acc, 1 ≤ n → data.length - (n - 1) * pageSize + 1 ≤ fuel →
      hgLoopAux (hgListPages data pageSize) (pageSize : Int) fuel n acc
        = some (.ok (acc ++ data.drop ((n - 1) * pageSize))) := by
  intro fuel
  induction fuel with
  | zero => intro n acc hn h; omega
  | succ f ih =>
    intro n acc hn h
    rw [hgLoopAux]
    show (if (((data.drop ((n - 1) * pageSize)).take pageSize).length : Int) < (pageSize : Int)
      then some (Except.ok (acc ++ (data.drop ((n - 1) * pageSize)).take pageSize))
      else hgLoopAux (hgListPages data pageSize) (pageSize : Int) f (n + 1)
        (acc ++ (data.drop ((n - 1) * pageSize)).take pageSize)) = _
    have hlen : ((data.drop ((n - 1) * pageSize)).take pageSize).length
        = min pageSize (data.drop ((n - 1) * pageSize)).length := List.length_take _ _
    by_cases hshort : (data.drop ((n - 1) * pageSize)).length < pageSize
    · have htake : (data.drop ((n - 1) * pageSize)).take pageSize
          = data.drop ((n - 1) * pageSize) :=
        List.take_of_length_le (by omega)
      rw [if_pos (by rw [htake]; exact_mod_cast hshort), htake]
    · have hrem : pageSize ≤ (data.drop ((n - 1) * pageSize)).length := by omega
      rw [if_neg (by
        rw [hlen]
        push_cast
        omega)]
      have hdroplen : (data.drop ((n - 1) * pageSize)).length
          = data.length - (n - 1) * pageSize := List.length_drop _ _
      have hnp : n * pageSize = (n - 1) * pageSize + pageSize := by
        rcases n with _ | m
        · omega
        · simp [Nat.succ_mul]
      rw [ih (n + 1) (acc ++ (data.drop ((n - 1) * pageSize)).take pageSize) (by omega)
        (by simp only [Nat.add_sub_cancel]; omega)]
      simp only [Nat.add_sub_cancel]
      rw [List.append_assoc]
      have hdd : data.drop (n * pageSize) = (data.drop ((n - 1) * pageSize)).drop pageSize := by
        rw [List.drop_drop, hnp]
      rw [hdd, List.take_append_drop]

/-! ### Termination characterisation of the two loops -/

/-- The one-page condition on which the API-style loop stops at the page it
just received: a raised request error, or a page strictly shorter than the
requested page size. -/
def hgPageStops {α : Type} (pageSize : Int) : Except String (List α) → Prop
  | .error _ => True
  | .ok l => (l.length : Int) < pageSize

theorem hgLoop_isSome_of_stop {α : Type} (pages : Nat → Except String (List α))
    (pageSize : Int) :
    ∀ k n acc, hgPageStops pageSize (pages (n + k)) →
      (hgLoopAux pages pageSize (k + 1) n acc).isSome = true := by
  intro k
  induction k with
  | zero =>
    intro n acc h
    rcases hp : pages n with e | l
    · simp [hgLoopAux, hp]
    · rw [Nat.add_zero, hp] at h
      simp only [hgPageStops] at h
      simp [hgLoopAux, hp, if_pos h]
  | succ k ih =>
    intro n acc h
    rcases hp : pages n with e | l
    · simp [hgLoopAux, hp]
    · rw [hgLoopAux, hp]
      dsimp only
      by_cases hshort : (l.length : Int) < pageSize
      · simp [if_pos hshort]
      · rw [if_neg hshort]
        have hidx : n + (k + 1) = (n + 1) + k := by omega
        rw [hidx] at h
        exact ih (n + 1) (acc ++ l) h

theorem hgLoop_none_of_all_full {α : Type} (pages : Nat → Except String (List α))
    (pageSize : Int)
    (hfull : ∀ m, 1 ≤ m → ∃ l, pages m = .ok l ∧ ¬((l.length : Int) < pageSize)) :
    ∀ fuel n acc, 1 ≤ n → hgLoopAux pages pageSize fuel n acc = none := by
  intro fuel
  induction fuel with
  | zero => intro n acc hn; rfl
  | succ f ih =>
    intro n acc hn
    obtain ⟨l, hl, hshort⟩ := hfull n hn
    rw [hgLoopAux, hl]
    dsimp only
    rw [if_neg hshort]
    exact ih (n + 1) (acc ++ l) (by omega)

theorem storeLoop_isSome_of_empty {α : Type} (exec_ : Nat → Except String (List α))
    (limit : Nat) (hok : ∀ i, ∃ l, exec_ (i * limit) = .ok l) :
    ∀ k j acc, exec_ ((j + k) * limit) = .ok [] →
      ∃ fuel, (storeLoopAux exec_ limit fuel (j * limit) acc).isSome = true := by
  intro k
  induction k with
  | zero =>
    intro j acc h
    rw [Nat.add_zero] at h
    exact ⟨1, by simp [storeLoopAux, h]⟩
  | succ k ih =>
    intro j acc h
    obtain ⟨l, hl⟩ := hok j
    by_cases hemp : l.isEmpty
    · exact ⟨1, by simp [storeLoopAux, hl, hemp]⟩
    · have hidx : (j + 1) + k = j + (k + 1) := by omega
      obtain ⟨f, hf⟩ := ih (j + 1) (acc ++ l) (by rw [hidx]; exact h)
      refine ⟨f + 1, ?_⟩
      rw [storeLoopAux, hl]
      dsimp only
      rw [if_neg (by simp only [hemp]; exact Bool.false_ne_true)]
      have hoff : j * limit + limit = (j + 1) * limit := by ring
      rw [hoff]
      exact hf

theorem storeLoop_none_of_all_nonempty {α : Type} (exec_ : Nat → Except String (List α))
    (limit : Nat) (hne : ∀ i, ∃ l, exec_ (i * limit) = .ok l ∧ l ≠ []) :
    ∀ fuel i acc, storeLoopAux exec_ limit fuel (i * limit) acc = none := by
  intro fuel
  induction fuel with
  | zero => intro i acc; rfl
  | succ f ih =>
    intro i acc
    obtain ⟨l, hl, hl0⟩ := hne i
    rw [storeLoopAux, hl]
    dsimp only
    rw [if_neg (by simp [hl0])]
    have hoff : i * limit + limit = (i + 1) * limit := by ring
    rw [hoff]
    exact ih (i + 1) (acc ++ l)

/-! ### Error propagation through the loops -/

theorem hgLoop_error_reach {α : Type} (pages : Nat → Except String (List α))
    (pageSize : Int) (k : Nat) (e : String)
    (hfull : ∀ m, 1 ≤ m → m < k → ∃ l, pages m = .ok l ∧ ¬((l.length : Int) < pageSize))
    (herr : pages k = .error e) :
    ∀ fuel n acc, 1 ≤ n → n ≤ k → k - n + 1 ≤ fuel →
      hgLoopAux pages pageSize fuel n acc = some (.error e) := by
  intro fuel
  induction fuel with
  | zero => intro n acc h1 h2 h3; omega
  | succ f ih =>
    intro n acc h1 h2 h3
    by_cases hnk : n = k
    · subst hnk
      rw [hgLoopAux, herr]
    · obtain ⟨l, hl, hshort⟩ := hfull n h1 (by omega)
      rw [hgLoopAux, hl]
      dsimp only
      rw [if_neg hshort]
      exact ih (n + 1) (acc ++ l) (by omega) (by omega) (by omega)

theorem storeLoop_error_reach {α : Type} (exec_ : Nat → Except String (List α))
    (limit : Nat) (k : Nat) (e : String)
    (hfull : ∀ i, i < k → ∃ l, exec_ (i * limit) = .ok l ∧ l ≠ [])
    (herr : exec_ (k * limit) = .error e) :
    ∀ fuel j acc, j ≤ k → k - j + 1 ≤ fuel →
      storeLoopAux exec_ limit fuel (j * limit) acc = some (.error e) := by
  intro fuel
  induction fuel with
  | zero => intro j acc h1 h2; omega
  | succ f ih =>
    intro j acc h1 h2
    by_cases hjk : j = k
    · subst hjk
      rw [storeLoopAux, herr]
    · obtain ⟨l, hl, hl0⟩ := hfull j (by omega)
      rw [storeLoopAux, hl]
      dsimp only
      rw [if_neg (by simp [hl0])]
      have hoff : j * limit + limit = (j + 1) * limit := by ring
      rw [hoff]
      exact ih (j + 1) (acc ++ l) (by omega) (by omega)

/-! ### Non-termination at a non-positive page size -/

theorem hgLoop_none_of_nonpos {α : Type} (pages : Nat → Except String (List α))
    (pageSize : Int) (hP : pageSize ≤ 0)
    (hok : ∀ n, ∃ l, pages n = .ok l) :
    ∀ fuel n acc, hgLoopAux pages pageSize fuel n acc = none := by
  intro fuel
  induction fuel with
  | zero => intro n acc; rfl
  | succ f ih =>
    intro n acc
    obtain ⟨l, hl⟩ := hok n
    rw [hgLoopAux, hl]
    dsimp only
    rw [if_neg (by
      have : (0 : Int) ≤ (l.length : Int) := Int.ofNat_nonneg _
      omega)]
    exact ih (n + 1) (acc ++ l)

/-! ## Filter Specification → query translation

`award_table_filter.py` and `table_filter_Lawrence.py` translate a parameter
object into PostgREST constraints.  A missing database field is a SQL `NULL`;
under three-valued logic every comparison filter (`in`, `neq`, `gte`, `lte`,
`gt`, `eq`, `text_search`) drops a row whose compared field is `NULL`.
Python truthiness guards the translation: `if aq.X:` skips `None`, the empty
list and the empty string, while `if aq.Y is not None:` (the amount bounds)
skips only `None`. -/

/-- A row of the `awards` table, restricted to the fields
`get_filtered_awards` reads.  `none` is a SQL `NULL`. -/
structure Award where
  recipient_uei : Option String := none
  parent_recipient_uei : Option String := none
  period_of_performance_potential_end_date : Option String := none
  naics : Option String := none
  product_or_service_code : Option String := none
  type_set_aside : Option String := none
  funding_agency_subtier_agency_code : Option String := none
  extent_competed_description : Option String := none
  total_obligation : Option Int := none
  description : Option String := none
  deriving DecidableEq

/-- A row of the `organizations` table, restricted to the fields the
organization-key lookup reads. -/
structure Organization where
  organization_key : String
  fpds_code : Option String := none
  deriving DecidableEq

/-- A row of the `notices` table, restricted to the fields
`get_filtered_notices` filters on. -/
structure Notice where
  latest : Option Bool := none
  solicitation_response_deadline : Option String := none
  naics : Option String := none
  noticeType : Option String := none
  psc : Option String := none
  set_aside_id : Option Int := none
  organization_key : Option Int := none
  organization_level_1_key : Option Int := none
  organization_level_2_key : Option Int := none
  organization_level_3_key : Option Int := none
  organization_level_4_key : Option Int := none
  organization_level_5_key : Option Int := none
  organization_level_6_key : Option Int := none
  organization_level_7_key : Option Int := none
  opportunity_text : Option String := none
  deriving DecidableEq

/-- The fixed backing store: the tables the two filter scripts query. -/
structure Database where
  awards : List Award := []
  organizations : List Organization := []
  notices : List Notice := []
  deriving DecidableEq

/-- The `AwardsQuery` dataclass of `award_table_filter.py` (every field
defaults to `None`). -/
structure AwardsQuery where
  INCLUDE_RECIPIENT_UEI : Option (List String) := none
  EXCLUDE_RECIPIENT_UEI : Option (List String) := none
  POTENTIAL_END_DATE_START : Option String := none
  POTENTIAL_END_DATE_END : Option String := none
  INCLUDE_NAICS : Option (List String) := none
  EXCLUDE_NAICS : Option (List String) := none
  INCLUDE_PSC : Option (List String) := none
  EXCLUDE_PSC : Option (List String) := none
  INCLUDE_SET_ASIDE_IDS : Option (List String) := none
  EXCLUDE_SET_ASIDE_IDS : Option (List String) := none
  INCLUDE_ORGANIZATION_KEYS : Option (List String) := none
  EXCLUDE_ORGANIZATION_KEYS : Option (List String) := none
  INCLUDE_EXTENT_COMPETED : Option (List String) := none
  EXCLUDE_EXTENT_COMPETED : Option (List String) := none
  AMOUNT_OBLIGATED_MINIMUM : Option Int := none
  AMOUNT_OBLIGATED_MAXIMUM : Option Int := none
  KEYWORD_QUERY : Option String := none
  deriving DecidableEq

/-- The `AwardsQuery()` with every field left unset. -/
def emptyAwardsQuery : AwardsQuery := {}

/-- PostgREST `in_(field, l)`: the row survives iff the field is non-`NULL`
and its value is one of `l`. -/
def inList (v : Option String) (l : List String) : Bool :=
  match v with
  | some s => l.contains s
  | none => false

/-- PostgREST `neq(field, x)`: the row survives iff the field is non-`NULL`
and differs from `x`. -/
def neqStr (v : Option String) (x : String) : Bool :=
  match v with
  | some s => s != x
  | none => false

/-- `in_` over an integer column. -/
def inListInt (v : Option Int) (l : List Int) : Bool :=
  match v with
  | some s => l.contains s
  | none => false

/-- `neq` over an integer column. -/
def neqInt (v : Option Int) (x : Int) : Bool :=
  match v with
  | some s => s != x
  | none => false

/-- `eq` over an integer column. -/
def eqIntCol (v : Option Int) (x : Int) : Bool :=
  match v with
  | some s => s == x
  | none => false

/-- `eq` over a boolean column. -/
def eqBoolCol (v : Option Bool) (x : Bool) : Bool :=
  match v with
  | some s => s == x
  | none => false

/-- `gte(field, b)` over a text column (ISO dates compare lexicographically). -/
def gteStr (v : Option String) (b : String) : Bool :=
  match v with
  | some s => decide (b ≤ s)
  | none => false

/-- `lte(field, b)` over a text column. -/
def lteStr (v : Option String) (b : String) : Bool :=
  match v with
  | some s => decide (s ≤ b)
  | none => false

/-- `gt(field, b)` over a text column. -/
def gtStr (v : Option String) (b : String) : Bool :=
  match v with
  | some s => decide (b < s)
  | none => false

/-- `gte` over a numeric column. -/
def gteInt (v : Option Int) (b : Int) : Bool :=
  match v with
  | some s => decide (b ≤ s)
  | none => false

/-- `lte` over a numeric column. -/
def lteInt (v : Option Int) (b : Int) : Bool :=
  match v with
  | some s => decide (s ≤ b)
  | none => false

/-- `text_search(field, q)`: the text-search oracle `ts` stands for the
backing store's websearch matcher; a `NULL` field never matches. -/
def textOk (ts : String → String → Bool) (q : String) (v : Option String) : Bool :=
  match v with
  | some d => ts q d
  | none => false

/-- An optional inclusion list guarded by Python truthiness:
`if aq.INCLUDE_X:` applies `in_` only when the list is present and
non-empty. -/
def applyIncl (crit : Option (List String)) (v : Option String) : Bool :=
  match crit with
  | some l => if l.isEmpty then true else inList v l
  | none => true

/-- An optional exclusion list: `if aq.EXCLUDE_X:` followed by one `neq` per
element (an empty or missing list contributes no constraint). -/
def applyExcl (crit : Option (List String)) (v : Option String) : Bool :=
  match crit with
  | some l => l.all (fun x => neqStr v x)
  | none => true

/-- Inclusion list over an integer column. -/
def applyInclInt (crit : Option (List Int)) (v : Option Int) : Bool :=
  match crit with
  | some l => if l.isEmpty then true else inListInt v l
  | none => true

/-- Exclusion list over an integer column, one `neq` per element. -/
def applyExclInt (crit : Option (List Int)) (v : Option Int) : Bool :=
  match crit with
  | some l => l.all (fun x => neqInt v x)
  | none => true

/-- Lines 35-55 of `award_table_filter.py`: resolve organization keys to
`fpds_code`s through the `organizations` table, keeping only truthy codes. -/
def resolveFpdsCodes (orgs : List Organization) (keys : List String) : List String :=
  (orgs.filter (fun o => keys.contains o.organization_key)).filterMap
    (fun o => match o.fpds_code with
      | some c => if c = "" then none else some c
      | none => none)

/-- `fpds_codes_include`: computed only when `INCLUDE_ORGANIZATION_KEYS` is
truthy, otherwise left `[]`. -/
def orgIncludeCodes (db : Database) (aq : AwardsQuery) : List String :=
  match aq.INCLUDE_ORGANIZATION_KEYS with
  | some keys => if keys.isEmpty then [] else resolveFpdsCodes db.organizations keys
  | none => []

/-- `fpds_codes_exclude`: computed only when `EXCLUDE_ORGANIZATION_KEYS` is
truthy, otherwise left `[]`. -/
def orgExcludeCodes (db : Database) (aq : AwardsQuery) : List String :=
  match aq.EXCLUDE_ORGANIZATION_KEYS with
  | some keys => if keys.isEmpty then [] else resolveFpdsCodes db.organizations keys
  | none => []

/-- Lines 60-64: `or_("recipient_uei.in.(...),parent_recipient_uei.in.(...)")`. -/
def ueiIncludeOk (aq : AwardsQuery) (a : Award) : Bool :=
  match aq.INCLUDE_RECIPIENT_UEI with
  | some l =>
    if l.isEmpty then true
    else inList a.recipient_uei l || inList a.parent_recipient_uei l
  | none => true

/-- Lines 66-70: per excluded UEI, `neq` on both the recipient and the parent
recipient columns. -/
def ueiExcludeOk (aq : AwardsQuery) (a : Award) : Bool :=
  match aq.EXCLUDE_RECIPIENT_UEI with
  | some l => l.all (fun u => neqStr a.recipient_uei u && neqStr a.parent_recipient_uei u)
  | none => true

/-- Lines 72-77: inclusive range bounds on the potential end date (guarded by
string truthiness). -/
def dateStartOk (aq : AwardsQuery) (a : Award) : Bool :=
  match aq.POTENTIAL_END_DATE_START with
  | some d => if d = "" then true else gteStr a.period_of_performance_potential_end_date d
  | none => true

/-- Lines 75-77: the upper date bound. -/
def dateEndOk (aq : AwardsQuery) (a : Award) : Bool :=
  match aq.POTENTIAL_END_DATE_END with
  | some d => if d = "" then true else lteStr a.period_of_performance_potential_end_date d
  | none => true

/-- Lines 119-121: `is not None` guard, then `gte` on `total_obligation`. -/
def amountMinOk (aq : AwardsQuery) (a : Award) : Bool :=
  match aq.AMOUNT_OBLIGATED_MINIMUM with
  | some m => gteInt a.total_obligation m
  | none => true

/-- Lines 122-124: `lte` on `total_obligation`. -/
def amountMaxOk (aq : AwardsQuery) (a : Award) : Bool :=
  match aq.AMOUNT_OBLIGATED_MAXIMUM with
  | some m => lteInt a.total_obligation m
  | none => true

/-- Lines 128-130: websearch text search on `description` (guarded by string
truthiness). -/
def keywordOk (ts : String → String → Bool) (aq : AwardsQuery) (a : Award) : Bool :=
  match aq.KEYWORD_QUERY with
  | some q => if q = "" then true else textOk ts q a.description
  | none => true

/-- The full conjunction of constraints `get_filtered_awards` attaches to one
page query (lines 58-130), evaluated against one row.  `fpdsInc` / `fpdsExc`
are the pre-resolved organization code lists; `if fpds_codes_include:` guards
the include constraint by non-emptiness. -/
def awardMatches (ts : String → String → Bool) (fpdsInc fpdsExc : List String)
    (aq : AwardsQuery) (a : Award) : Bool :=
  ueiIncludeOk aq a && ueiExcludeOk aq a
  && dateStartOk aq a && dateEndOk aq a
  && applyIncl aq.INCLUDE_NAICS a.naics && applyExcl aq.EXCLUDE_NAICS a.naics
  && applyIncl aq.INCLUDE_PSC a.product_or_service_code
  && applyExcl aq.EXCLUDE_PSC a.product_or_service_code
  && applyIncl aq.INCLUDE_SET_ASIDE_IDS a.type_set_aside
  && applyExcl aq.EXCLUDE_SET_ASIDE_IDS a.type_set_aside
  && (if fpdsInc.isEmpty then true else inList a.funding_agency_subtier_agency_code fpdsInc)
  && fpdsExc.all (fun c => neqStr a.funding_agency_subtier_agency_code c)
  && applyIncl aq.INCLUDE_EXTENT_COMPETED a.extent_competed_description
  && applyExcl aq.EXCLUDE_EXTENT_COMPETED a.extent_competed_description
  && amountMinOk aq a && amountMaxOk aq a
  && keywordOk ts aq a

/-- The true result set of one translated awards query: the `awards` table
filtered by the conjunction, in the store's natural order. -/
def awardsQueryResult (ts : String → String → Bool) (db : Database)
    (aq : AwardsQuery) : List Award :=
  db.awards.filter (awardMatches ts (orgIncludeCodes db aq) (orgExcludeCodes db aq) aq)

/-- `get_filtered_awards` (`award_table_filter.py` lines 30-138): resolve the
organization lookups once, then page through the filtered result set with
`range(offset, offset + limit - 1)` until an empty page.  The source fixes
`limit = 1000`; it is a parameter here so that the pagination contract can be
stated for every page size. -/
def get_filtered_awards (ts : String → String → Bool) (db : Database)
    (aq : AwardsQuery) (limit : Nat) : Option (Except String (List Award)) :=
  let filtered := awardsQueryResult ts db aq
  storeLoopAux (supaPages filtered limit) limit (filtered.length + 1) 0 []

/-- The keyword parameters of `get_filtered_notices`
(`table_filter_Lawrence.py` lines 9-23).  The `set_aside_id` and
`organization_key` lists carry the integer values the source obtains with
`int(x)` before filtering. -/
structure NoticesQuery where
  active : Bool := true
  include_naics : Option (List String) := none
  exclude_naics : Option (List String) := none
  include_solicitation_types : Option (List String) := none
  exclude_solicitation_types : Option (List String) := none
  include_psc : Option (List String) := none
  exclude_psc : Option (List String) := none
  include_set_aside_ids : Option (List Int) := none
  exclude_set_aside_ids : Option (List Int) := none
  include_organization_keys : Option (List Int) := none
  exclude_organization_keys : Option (List Int) := none
  keyword_query : Option String := none
  deriving DecidableEq

/-- A `get_filtered_notices` call with no criterion active: every optional
filter absent and the `active` flag off. -/
def emptyNoticesQuery : NoticesQuery := { active := false }

/-- Lines 53-59: the `active` flag adds `eq("latest", True)` and
`gt("solicitation_response_deadline", now)`. -/
def activeOk (now : String) (nq : NoticesQuery) (n : Notice) : Bool :=
  if nq.active then
    eqBoolCol n.latest true && gtStr n.solicitation_response_deadline now
  else true

/-- Lines 93-108: each included organization key matches any of the eight
organization-key columns (one big `or_`), guarded by list truthiness. -/
def orgKeysIncludeOk (nq : NoticesQuery) (n : Notice) : Bool :=
  match nq.include_organization_keys with
  | some keys =>
    if keys.isEmpty then true
    else keys.any (fun k =>
      eqIntCol n.organization_key k || eqIntCol n.organization_level_1_key k
      || eqIntCol n.organization_level_2_key k || eqIntCol n.organization_level_3_key k
      || eqIntCol n.organization_level_4_key k || eqIntCol n.organization_level_5_key k
      || eqIntCol n.organization_level_6_key k || eqIntCol n.organization_level_7_key k)
  | none => true

/-- Lines 119-122: websearch text search on `opportunity_text`, guarded by
string truthiness. -/
def keywordOkNotices (ts : String → String → Bool) (nq : NoticesQuery) (n : Notice) : Bool :=
  match nq.keyword_query with
  | some q => if q = "" then true else textOk ts q n.opportunity_text
  | none => true

/-- The conjunction of constraints `get_filtered_notices` attaches to one
page query (lines 35-122), evaluated against one row; `exclude` of
organization keys (lines 110-115) tests only the `organization_key` column. -/
def noticeMatches (ts : String → String → Bool) (now : String)
    (nq : NoticesQuery) (n : Notice) : Bool :=
  activeOk now nq n
  && applyIncl nq.include_naics n.naics && applyExcl nq.exclude_naics n.naics
  && applyIncl nq.include_solicitation_types n.noticeType
  && applyExcl nq.exclude_solicitation_types n.noticeType
  && applyIncl nq.include_psc n.psc && applyExcl nq.exclude_psc n.psc
  && applyInclInt nq.include_set_aside_ids n.set_aside_id
  && applyExclInt nq.exclude_set_aside_ids n.set_aside_id
  && orgKeysIncludeOk nq n
  && applyExclInt nq.exclude_organization_keys n.organization_key
  && keywordOkNotices ts nq n

/-- The true result set of one translated notices query. -/
def noticesQueryResult (ts : String → String → Bool) (now : String)
    (db : Database) (nq : NoticesQuery) : List Notice :=
  db.notices.filter (noticeMatches ts now nq)

/-- `get_filtered_notices` (`table_filter_Lawrence.py` lines 9-134): page
through the filtered result set with `range(offset, offset + limit - 1)`
until an empty page; the source fixes `limit = 1000`. -/
def get_filtered_notices (ts : String → String → Bool) (now : String)
    (db : Database) (nq : NoticesQuery) (limit : Nat) :
    Option (Except String (List Notice)) :=
  let filtered := noticesQueryResult ts now db nq
  storeLoopAux (supaPages filtered limit) limit (filtered.length + 1) 0 []

/-- The post-query verification step of `get_filtered_opportunities`
(`testing.py` lines 933-948): when a NAICS or PSC criterion was supplied,
re-check each returned notice field-by-field; `notice.get(...) in codes` with
a missing field is `False`. -/
def verifiedNotices (naics_codes psc_codes : List String)
    (notices : List Notice) : List Notice :=
  if !naics_codes.isEmpty || !psc_codes.isEmpty then
    notices.filter (fun n =>
      (naics_codes.isEmpty || inList n.naics naics_codes)
      && (psc_codes.isEmpty || inList n.psc psc_codes))
  else notices

/-! ## Claim theorems -/

/-- C2: a record of collection A is reported as matched exactly when some
record of collection B has an Identity Set intersecting it non-emptily;
unmatched-in-A is exactly the records of A with no such counterpart (and
symmetrically, since `mismatchRecords` is applied in both directions); and on
the spec's scenario A = [{X1}, {X2}], B = [{X1, Y1}] the engine reports
unmatched-in-A = [{X2}], unmatched-in-B = [] and one total mismatch. -/
theorem matched_iff_intersecting_counterpart (A B : List (List String)) (r : List String) :
    (find_match r B = true ↔ ∃ other ∈ B, ∃ x ∈ r, x ∈ other)
    ∧ (r ∈ mismatchRecords A B ↔ r ∈ A ∧ find_match r B = false)
    ∧ mismatchRecords [["X1"], ["X2"]] [["X1", "Y1"]] = [["X2"]]
    ∧ mismatchRecords [["X1", "Y1"]] [["X1"], ["X2"]] = []
    ∧ totalMismatches [["X1"], ["X2"]] [["X1", "Y1"]] = 1 := by
  refine ⟨find_match_iff r B, mem_mismatchRecords_iff r A B, ?_, ?_, ?_⟩ <;> decide

/-- C7 counterexample: reconciling the one-record collection whose record has
an empty Identity Set against an identical copy of itself does not yield zero
unmatched records — the empty set intersects nothing, so the record is
unmatched in both directions and the total mismatch count is 2, not 0. -/
theorem self_reconciliation_counterexample :
    mismatchRecords [([] : List String)] [([] : List String)] = [[]]
    ∧ mismatchRecords [([] : List String)] [([] : List String)] ≠ []
    ∧ totalMismatches [([] : List String)] [([] : List String)] = 2 := by
  refine ⟨rfl, ?_, rfl⟩
  decide

/-- C7 (amended): for every collection A in which every record has a
non-empty Identity Set, reconciling A against an identical copy of itself
yields zero unmatched records in both directions and zero total mismatches. -/
theorem self_reconciliation_zero_mismatches (A : List (List String))
    (h : ∀ r ∈ A, r ≠ []) :
    mismatchRecords A A = [] ∧ totalMismatches A A = 0 := by
  have hm : mismatchRecords A A = [] := by
    rw [mismatchRecords, List.filter_eq_nil_iff]
    intro r hr
    simp [find_match_self (h r hr) hr]
  exact ⟨hm, by simp [totalMismatches, hm]⟩

/-- C7 witness: the amended statement applied to the concrete collection
[{X1}]. -/
theorem self_reconciliation_zero_mismatches_witness :
    mismatchRecords [["X1"]] [["X1"]] = [] ∧ totalMismatches [["X1"]] [["X1"]] = 0 :=
  self_reconciliation_zero_mismatches [["X1"]] (by decide)

/-- C8: a record with an empty Identity Set is always reported in
unmatched-in-A, whatever the other collection holds (the empty set intersects
nothing, so `find_match` is `False` for it). -/
theorem empty_idset_always_unmatched (A B : List (List String)) (h : [] ∈ A) :
    [] ∈ mismatchRecords A B ∧ find_match [] B = false :=
  ⟨(mem_mismatchRecords_iff [] A B).2 ⟨h, find_match_nil B⟩, find_match_nil B⟩

/-- C8 witness: the empty-identifier record inside a concrete collection A is
unmatched against a concrete non-empty B. -/
theorem empty_idset_always_unmatched_witness :
    [] ∈ mismatchRecords [["X1"], []] [["X1", "Y1"]]
    ∧ find_match [] [["X1", "Y1"]] = false :=
  empty_idset_always_unmatched [["X1"], []] [["X1", "Y1"]] (by decide)

/-! ### Fetching the complete filtered result set -/

theorem get_filtered_awards_eq (ts : String → String → Bool) (db : Database)
    (aq : AwardsQuery) (limit : Nat) (hl : 1 ≤ limit) :
    get_filtered_awards ts db aq limit = some (.ok (awardsQueryResult ts db aq)) := by
  rw [get_filtered_awards]
  rw [storeLoop_fixed_complete (awardsQueryResult ts db aq) limit hl _ 0 [] (by omega)]
  simp

theorem get_filtered_notices_eq (ts : String → String → Bool) (now : String)
    (db : Database) (nq : NoticesQuery) (limit : Nat) (hl : 1 ≤ limit) :
    get_filtered_notices ts now db nq limit
      = some (.ok (noticesQueryResult ts now db nq)) := by
  rw [get_filtered_notices]
  rw [storeLoop_fixed_complete (noticesQueryResult ts now db nq) limit hl _ 0 [] (by omega)]
  simp

theorem awardMatches_empty (ts : String → String → Bool) (fi fe : List String)
    (a : Award) (hfi : fi = []) (hfe : fe = []) :
    awardMatches ts fi fe emptyAwardsQuery a = true := by
  subst hfi hfe
  rfl

theorem awardsQueryResult_empty (ts : String → String → Bool) (db : Database) :
    awardsQueryResult ts db emptyAwardsQuery = db.awards := by
  rw [awardsQueryResult]
  exact List.filter_eq_self.2 (fun a _ => awardMatches_empty ts _ _ a rfl rfl)

theorem noticeMatches_empty (ts : String → String → Bool) (now : String) (n : Notice) :
    noticeMatches ts now emptyNoticesQuery n = true := rfl

theorem noticesQueryResult_empty (ts : String → String → Bool) (now : String)
    (db : Database) :
    noticesQueryResult ts now db emptyNoticesQuery = db.notices := by
  rw [noticesQueryResult]
  exact List.filter_eq_self.2 (fun n _ => noticeMatches_empty ts now n)

/-- C4: with every filter field unset (all optional criteria absent, the
notices `active` flag off), the query translation adds zero constraints: the
filtered result set is the whole table, and the paginated fetch (at the
source's page size of 1000) returns the full unfiltered collection. -/
theorem unset_filters_add_no_constraints (ts : String → String → Bool)
    (now : String) (db : Database) :
    awardsQueryResult ts db emptyAwardsQuery = db.awards
    ∧ get_filtered_awards ts db emptyAwardsQuery 1000 = some (.ok db.awards)
    ∧ noticesQueryResult ts now db emptyNoticesQuery = db.notices
    ∧ get_filtered_notices ts now db emptyNoticesQuery 1000 = some (.ok db.notices) := by
  refine ⟨awardsQueryResult_empty ts db, ?_, noticesQueryResult_empty ts now db, ?_⟩
  · rw [get_filtered_awards_eq ts db emptyAwardsQuery 1000 (by omega),
      awardsQueryResult_empty]
  · rw [get_filtered_notices_eq ts now db emptyNoticesQuery 1000 (by omega),
      noticesQueryResult_empty]

/-! ### Inclusion and exclusion list semantics -/

theorem inList_iff (v : Option String) (l : List String) :
    inList v l = true ↔ ∃ s, v = some s ∧ s ∈ l := by
  cases v <;> simp [inList]

theorem applyIncl_nonempty (L : List String) (hL : L ≠ []) (v : Option String) :
    applyIncl (some L) v = inList v L := by
  rcases L with _ | ⟨x, xs⟩
  · exact absurd rfl hL
  · rfl

theorem awardMatches_incl_naics {ts : String → String → Bool} {fi fe : List String}
    {aq : AwardsQuery} {a : Award} (h : awardMatches ts fi fe aq a = true) :
    applyIncl aq.INCLUDE_NAICS a.naics = true := by
  simp only [awardMatches, Bool.and_eq_true] at h
  tauto

theorem awardMatches_excl_naics {ts : String → String → Bool} {fi fe : List String}
    {aq : AwardsQuery} {a : Award} (h : awardMatches ts fi fe aq a = true) :
    applyExcl aq.EXCLUDE_NAICS a.naics = true := by
  simp only [awardMatches, Bool.and_eq_true] at h
  tauto

theorem awardMatches_excl_noop (ts : String → String → Bool)
    (fi fe : List String) (aq : AwardsQuery) (L E : List String)
    (hincl : aq.INCLUDE_NAICS = some L) (hexcl : aq.EXCLUDE_NAICS = some E)
    (hL : L ≠ []) (hdisj : ∀ x ∈ E, x ∉ L) (a : Award) :
    awardMatches ts fi fe aq a
      = awardMatches ts fi fe { aq with EXCLUDE_NAICS := none } a := by
  simp only [awardMatches, hincl, hexcl, applyIncl_nonempty L hL]
  by_cases hv : inList a.naics L = true
  · obtain ⟨v, hvn, hvL⟩ := (inList_iff _ _).1 hv
    have hexc : applyExcl (some E) a.naics = true := by
      rw [applyExcl, List.all_eq_true]
      intro x hx
      have hne : v ≠ x := fun hvx => (hdisj x hx) (hvx ▸ hvL)
      simp [hvn, neqStr, hne]
    rw [hexc]
    rfl
  · rw [Bool.not_eq_true] at hv
    rw [hv]
    simp [applyExcl]

/-- C5: every record returned under an inclusion list has its field value in
the list; no record returned under an exclusion list (applied as one `neq`
per element) has its field value in the list; the same field carrying both an
inclusion list L and a disjoint exclusion list E returns exactly the
inclusion-only results; and the NAICS re-verification step of
`get_filtered_opportunities` only keeps notices whose NAICS is in the
supplied codes.  Stated over the NAICS field, the representative
include/exclude pair of `get_filtered_awards`. -/
theorem inclusion_exclusion_semantics (ts : String → String → Bool) (db : Database) :
    (∀ aq L, aq.INCLUDE_NAICS = some L → L ≠ [] →
      ∀ a ∈ awardsQueryResult ts db aq, ∃ v, a.naics = some v ∧ v ∈ L)
    ∧ (∀ aq E, aq.EXCLUDE_NAICS = some E →
      ∀ a ∈ awardsQueryResult ts db aq, ∀ v, a.naics = some v → v ∉ E)
    ∧ (∀ aq L E, aq.INCLUDE_NAICS = some L → aq.EXCLUDE_NAICS = some E →
      L ≠ [] → (∀ x ∈ E, x ∉ L) →
      awardsQueryResult ts db aq
        = awardsQueryResult ts db { aq with EXCLUDE_NAICS := none })
    ∧ (∀ naics_codes psc_codes notices, naics_codes ≠ [] →
      ∀ n ∈ verifiedNotices naics_codes psc_codes notices,
        ∃ v, n.naics = some v ∧ v ∈ naics_codes) := by
  refine ⟨?_, ?_, ?_, ?_⟩
  · intro aq L hincl hL a ha
    rw [awardsQueryResult, List.mem_filter] at ha
    have h5 := awardMatches_incl_naics ha.2
    rw [hincl, applyIncl_nonempty L hL] at h5
    obtain ⟨v, hvn, hvL⟩ := (inList_iff _ _).1 h5
    exact ⟨v, hvn, hvL⟩
  · intro aq E hexcl a ha v hv
    rw [awardsQueryResult, List.mem_filter] at ha
    have h6 := awardMatches_excl_naics ha.2
    rw [hexcl, applyExcl, List.all_eq_true] at h6
    intro hvE
    have := h6 v hvE
    simp [neqStr, hv] at this
  · intro aq L E hincl hexcl hL hdisj
    rw [awardsQueryResult, awardsQueryResult]
    have horg1 : orgIncludeCodes db { aq with EXCLUDE_NAICS := none }
        = orgIncludeCodes db aq := rfl
    have horg2 : orgExcludeCodes db { aq with EXCLUDE_NAICS := none }
        = orgExcludeCodes db aq := rfl
    rw [horg1, horg2]
    exact List.filter_congr
      (fun a _ => awardMatches_excl_noop ts _ _ aq L E hincl hexcl hL hdisj a)
  · intro naics_codes psc_codes notices hne n hn
    rw [verifiedNotices] at hn
    have hie : naics_codes.isEmpty = false := by
      rcases naics_codes with _ | ⟨x, xs⟩
      · exact absurd rfl hne
      · rfl
    rw [hie] at hn
    simp only [Bool.not_false, Bool.true_or, if_pos] at hn
    rw [List.mem_filter] at hn
    have h2 := hn.2
    simp only [Bool.false_or, Bool.and_eq_true] at h2
    exact (inList_iff _ _).1 h2.1

/-! ### Concrete fixtures for witnesses -/

/-- A text-search oracle that never matches, used by concrete witnesses. -/
def tsNone : String → String → Bool := fun _ _ => false

/-- A concrete award row. -/
def awardW : Award := { naics := some "541511" }

/-- A concrete database: one award, one organization whose `fpds_code` is
`NULL`. -/
def dbW : Database :=
  { awards := [awardW], organizations := [{ organization_key := "org1" }] }

/-- A concrete awards query carrying a NAICS inclusion list and a disjoint
NAICS exclusion list. -/
def aqW : AwardsQuery :=
  { INCLUDE_NAICS := some ["541511"], EXCLUDE_NAICS := some ["999999"] }

/-- A concrete awards query whose organization-key filter resolves to no
fpds codes. -/
def aqOrgW : AwardsQuery := { INCLUDE_ORGANIZATION_KEYS := some ["org1"] }

/-- C5 witness: the disjoint-exclusion no-op applied to the concrete query
`aqW` over the concrete database `dbW`. -/
theorem inclusion_exclusion_semantics_witness :
    awardsQueryResult tsNone dbW aqW
      = awardsQueryResult tsNone dbW { aqW with EXCLUDE_NAICS := none } :=
  (inclusion_exclusion_semantics tsNone dbW).2.2.1 aqW ["541511"] ["999999"] rfl rfl
    (by decide) (by decide)

/-! ### The silently dropped organization filter -/

theorem orgIncludeCodes_nil {db : Database} {aq : AwardsQuery} {keys : List String}
    (hkeys : aq.INCLUDE_ORGANIZATION_KEYS = some keys) (hne : keys ≠ [])
    (hres : resolveFpdsCodes db.organizations keys = []) :
    orgIncludeCodes db aq = [] := by
  rw [orgIncludeCodes, hkeys]
  dsimp only
  rcases keys with _ | ⟨k, ks⟩
  · exact absurd rfl hne
  · exact hres

theorem orgExcludeCodes_nil {db : Database} {aq : AwardsQuery} {keys : List String}
    (hkeys : aq.EXCLUDE_ORGANIZATION_KEYS = some keys) (hne : keys ≠ [])
    (hres : resolveFpdsCodes db.organizations keys = []) :
    orgExcludeCodes db aq = [] := by
  rw [orgExcludeCodes, hkeys]
  dsimp only
  rcases keys with _ | ⟨k, ks⟩
  · exact absurd rfl hne
  · exact hres

/-- C6: when `INCLUDE_ORGANIZATION_KEYS` (or `EXCLUDE_ORGANIZATION_KEYS`) is
supplied but the organizations lookup resolves to no fpds codes,
`get_filtered_awards` adds no organization constraint: the filtered result
set and the paginated fetch both equal the run with that filter absent
(hence not the empty set). -/
theorem unresolved_org_filter_dropped (ts : String → String → Bool) (db : Database) :
    (∀ aq keys, aq.INCLUDE_ORGANIZATION_KEYS = some keys → keys ≠ [] →
      resolveFpdsCodes db.organizations keys = [] →
      awardsQueryResult ts db aq
        = awardsQueryResult ts db { aq with INCLUDE_ORGANIZATION_KEYS := none }
      ∧ get_filtered_awards ts db aq 1000
        = get_filtered_awards ts db { aq with INCLUDE_ORGANIZATION_KEYS := none } 1000)
    ∧ (∀ aq keys, aq.EXCLUDE_ORGANIZATION_KEYS = some keys → keys ≠ [] →
      resolveFpdsCodes db.organizations keys = [] →
      awardsQueryResult ts db aq
        = awardsQueryResult ts db { aq with EXCLUDE_ORGANIZATION_KEYS := none }
      ∧ get_filtered_awards ts db aq 1000
        = get_filtered_awards ts db { aq with EXCLUDE_ORGANIZATION_KEYS := none } 1000) := by
  constructor
  · intro aq keys hkeys hne hres
    have hq : awardsQueryResult ts db aq
        = awardsQueryResult ts db { aq with INCLUDE_ORGANIZATION_KEYS := none } := by
      rw [awardsQueryResult, awardsQueryResult, orgIncludeCodes_nil hkeys hne hres]
      have h1 : orgIncludeCodes db { aq with INCLUDE_ORGANIZATION_KEYS := none } = [] := rfl
      have h2 : orgExcludeCodes db { aq with INCLUDE_ORGANIZATION_KEYS := none }
          = orgExcludeCodes db aq := rfl
      rw [h1, h2]
      exact List.filter_congr (fun a _ => rfl)
    refine ⟨hq, ?_⟩
    rw [get_filtered_awards_eq ts db aq 1000 (by omega),
      get_filtered_awards_eq ts db _ 1000 (by omega), hq]
  · intro aq keys hkeys hne hres
    have hq : awardsQueryResult ts db aq
        = awardsQueryResult ts db { aq with EXCLUDE_ORGANIZATION_KEYS := none } := by
      rw [awardsQueryResult, awardsQueryResult, orgExcludeCodes_nil hkeys hne hres]
      have h1 : orgExcludeCodes db { aq with EXCLUDE_ORGANIZATION_KEYS := none } = [] := rfl
      have h2 : orgIncludeCodes db { aq with EXCLUDE_ORGANIZATION_KEYS := none }
          = orgIncludeCodes db aq := rfl
      rw [h1, h2]
      exact List.filter_congr (fun a _ => rfl)
    refine ⟨hq, ?_⟩
    rw [get_filtered_awards_eq ts db aq 1000 (by omega),
      get_filtered_awards_eq ts db _ 1000 (by omega), hq]

/-- C6 witness: the include branch applied to the concrete query `aqOrgW`
whose key `"org1"` resolves to an organization with a `NULL` fpds code. -/
theorem unresolved_org_filter_dropped_witness :
    awardsQueryResult tsNone dbW aqOrgW
      = awardsQueryResult tsNone dbW { aqOrgW with INCLUDE_ORGANIZATION_KEYS := none }
    ∧ get_filtered_awards tsNone dbW aqOrgW 1000
      = get_filtered_awards tsNone dbW { aqOrgW with INCLUDE_ORGANIZATION_KEYS := none } 1000 :=
  (unresolved_org_filter_dropped tsNone dbW).1 aqOrgW ["org1"] rfl (by decide) rfl

/-! ### Exactly-once pagination over a fixed data set -/

/-- C1 counterexample: the claim quantifies over every page size P ≥ 1 and
asserts set-equal results for P and P/2, but at P = 1 the half page size is
the integer 0, for which the store-style loop's very first `range(0, -1)`
page is empty and the fetch returns no records at all — not set-equal to the
P = 1 result. -/
theorem pagination_idempotence_counterexample :
    get_filtered_awards tsNone dbW emptyAwardsQuery 1 = some (.ok [awardW])
    ∧ get_filtered_awards tsNone dbW emptyAwardsQuery (1 / 2) = some (.ok [])
    ∧ get_filtered_awards tsNone dbW emptyAwardsQuery 1
      ≠ get_filtered_awards tsNone dbW emptyAwardsQuery (1 / 2) := by
  have h1 : get_filtered_awards tsNone dbW emptyAwardsQuery 1 = some (.ok [awardW]) := rfl
  have h2 : get_filtered_awards tsNone dbW emptyAwardsQuery (1 / 2) = some (.ok []) := rfl
  refine ⟨h1, h2, ?_⟩
  rw [h1, h2]
  intro h
  injection h with h
  injection h with h
  exact absurd h (by simp)

/-- C1 (amended): over a fixed backing data set and any page size P ≥ 1,
the store-style fetcher returns exactly the filtered result set and the
API-style short-page loop returns exactly the backing data — each record
once, in the backing order — and whenever P/2 is itself a valid page size
(P ≥ 2) the fetches at P and at P/2 return identical results. -/
theorem pagination_exactly_once (ts : String → String → Bool) (db : Database)
    (aq : AwardsQuery) (α : Type) (data : List α) (P : Nat) (hP : 1 ≤ P) :
    get_filtered_awards ts db aq P = some (.ok (awardsQueryResult ts db aq))
    ∧ hgLoopAux (hgListPages data P) (P : Int) (data.length + 1) 1 []
      = some (.ok data)
    ∧ (2 ≤ P →
      get_filtered_awards ts db aq P = get_filtered_awards ts db aq (P / 2)
      ∧ hgLoopAux (hgListPages data P) (P : Int) (data.length + 1) 1 []
        = hgLoopAux (hgListPages data (P / 2)) ((P / 2 : Nat) : Int)
            (data.length + 1) 1 []) := by
  have hz : (1 - 1) * P = 0 := by omega
  have hhg : ∀ Q : Nat, 1 ≤ Q →
      hgLoopAux (hgListPages data Q) (Q : Int) (data.length + 1) 1 []
        = some (.ok data) := by
    intro Q hQ
    have hzq : (1 - 1) * Q = 0 := by omega
    rw [hgLoop_fixed_complete data Q hQ (data.length + 1) 1 [] (by omega) (by omega)]
    rw [hzq]
    simp
  refine ⟨get_filtered_awards_eq ts db aq P hP, hhg P hP, ?_⟩
  intro h2
  have hhalf : 1 ≤ P / 2 := by omega
  constructor
  · rw [get_filtered_awards_eq ts db aq P hP,
      get_filtered_awards_eq ts db aq (P / 2) hhalf]
  · rw [hhg P hP, hhg (P / 2) hhalf]

/-- C1 witness: the amended statement applied to a concrete database, the
empty query, a three-record API data set and page size 2. -/
theorem pagination_exactly_once_witness :
    get_filtered_awards tsNone dbW emptyAwardsQuery 2
      = some (.ok (awardsQueryResult tsNone dbW emptyAwardsQuery))
    ∧ hgLoopAux (hgListPages [10, 20, 30] 2) ((2 : Nat) : Int) ([10, 20, 30].length + 1) 1 []
      = some (.ok [10, 20, 30])
    ∧ (2 ≤ 2 →
      get_filtered_awards tsNone dbW emptyAwardsQuery 2
        = get_filtered_awards tsNone dbW emptyAwardsQuery (2 / 2)
      ∧ hgLoopAux (hgListPages [10, 20, 30] 2) ((2 : Nat) : Int) ([10, 20, 30].length + 1) 1 []
        = hgLoopAux (hgListPages [10, 20, 30] (2 / 2)) ((2 / 2 : Nat) : Int)
            ([10, 20, 30].length + 1) 1 []) :=
  pagination_exactly_once tsNone dbW emptyAwardsQuery Nat [10, 20, 30] 2 (by omega)

/-! ### The two termination conditions -/

/-- A fixed response oracle for the searchid loop: page 1 is short (one
record against page size 2) yet advertises a next link; page 2 is final. -/
def respW : Nat → OppResponse String :=
  fun n => if n = 1 then ⟨["a"], true⟩ else if n = 2 then ⟨["b"], false⟩ else ⟨[], false⟩

/-- The same responses seen as bare pages by the short-page protocol. -/
def respWPages : Nat → Except String (List String) :=
  fun n => .ok (respW n).results

/-- C3 counterexample: `get_all_opportunities_for_searchid` is an API-style
page-number fetch loop, yet it does not terminate exactly when a page is
short: page 1 is strictly shorter than the page size 2, but the loop keeps
going (its result includes page 2's record), unlike the short-page protocol
of `highergov_get_all_awards`, which stops at page 1 on the same data. -/
theorem api_termination_counterexample :
    (respW 1).results.length < 2
    ∧ get_all_opportunities_for_searchid respW 100 10 = some ["a", "b"]
    ∧ hgLoopAux respWPages 2 10 1 [] = some (.ok ["a"])
    ∧ get_all_opportunities_for_searchid respW 100 10 ≠ some ["a"] := by
  refine ⟨by decide, rfl, rfl, ?_⟩
  intro h
  have h2 : get_all_opportunities_for_searchid respW 100 10 = some ["a", "b"] := rfl
  rw [h2] at h
  injection h with h
  exact absurd h (by simp)

/-- C3 (amended): the short-page loops of `highergov_get_all_awards` /
`highergov_get_all_opportunities` terminate exactly when some page returns
strictly fewer records than the requested page size, and the store-style
range-offset loops of `get_filtered_awards` / `get_filtered_notices`
terminate exactly when some visited offset returns zero records; the
page-capped `get_all_opportunities_for_searchid` loop instead stops on an
empty page, a missing next link or the page cap, not on a short page. -/
theorem loop_termination_conditions :
    (∀ (α : Type) (pages : Nat → Except String (List α)) (P : Int),
      (∀ n, ∃ l, pages n = .ok l) →
      ((∃ fuel, (hgLoopAux pages P fuel 1 []).isSome = true)
        ↔ ∃ N, 1 ≤ N ∧ ∃ l, pages N = .ok l ∧ (l.length : Int) < P))
    ∧ (∀ (α : Type) (exec_ : Nat → Except String (List α)) (limit : Nat),
      (∀ off, ∃ l, exec_ off = .ok l) →
      ((∃ fuel, (storeLoopAux exec_ limit fuel 0 []).isSome = true)
        ↔ ∃ k, exec_ (k * limit) = .ok [])) := by
  constructor
  · intro α pages P hok
    constructor
    · rintro ⟨fuel, hfuel⟩
      by_contra hno
      push_neg at hno
      have hfull : ∀ m, 1 ≤ m → ∃ l, pages m = .ok l ∧ ¬((l.length : Int) < P) := by
        intro m hm
        obtain ⟨l, hl⟩ := hok m
        exact ⟨l, hl, fun hshort => by
          have := hno m hm l hl
          omega⟩
      rw [hgLoop_none_of_all_full pages P hfull fuel 1 [] (by omega)] at hfuel
      simp at hfuel
    · rintro ⟨N, hN, l, hl, hshort⟩
      refine ⟨(N - 1) + 1, hgLoop_isSome_of_stop pages P (N - 1) 1 [] ?_⟩
      have hidx : 1 + (N - 1) = N := by omega
      rw [hidx, hl]
      exact hshort
  · intro α exec_ limit hok
    constructor
    · rintro ⟨fuel, hfuel⟩
      by_contra hno
      push_neg at hno
      have hne : ∀ i, ∃ l, exec_ (i * limit) = .ok l ∧ l ≠ [] := by
        intro i
        obtain ⟨l, hl⟩ := hok (i * limit)
        refine ⟨l, hl, fun hnil => hno i ?_⟩
        rw [hl, hnil]
      have h0 : (0 : Nat) = 0 * limit := (Nat.zero_mul limit).symm
      rw [h0, storeLoop_none_of_all_nonempty exec_ limit hne fuel 0 []] at hfuel
      simp at hfuel
    · rintro ⟨k, hk⟩
      have hok' : ∀ i, ∃ l, exec_ (i * limit) = .ok l := fun i => hok (i * limit)
      have hk' : exec_ ((0 + k) * limit) = .ok [] := by
        rw [Nat.zero_add]
        exact hk
      obtain ⟨fuel, hfuel⟩ := storeLoop_isSome_of_empty exec_ limit hok' k 0 [] hk'
      rw [Nat.zero_mul] at hfuel
      exact ⟨fuel, hfuel⟩

/-- C3 witness: both characterisations applied to a concrete all-empty-pages
oracle at page size / limit 2: the empty page is both short and empty, so
both loops terminate on it. -/
theorem loop_termination_conditions_witness :
    (∃ fuel, (hgLoopAux (fun _ => .ok ([] : List Nat)) 2 fuel 1 []).isSome = true)
    ∧ (∃ fuel, (storeLoopAux (fun _ => .ok ([] : List Nat)) 2 fuel 0 []).isSome = true) :=
  ⟨(loop_termination_conditions.1 Nat (fun _ => .ok []) 2 (fun _ => ⟨[], rfl⟩)).2
      ⟨1, by omega, [], rfl, by decide⟩,
    (loop_termination_conditions.2 Nat (fun _ => .ok []) 2 (fun _ => ⟨[], rfl⟩)).2
      ⟨0, rfl⟩⟩

/-! ### Error propagation -/

/-- C9: if the page request at step k fails while every earlier page kept the
loop going, the error itself is the loop's outcome: the whole fetch aborts
with exactly that error, none of the records accumulated from earlier pages
is returned, and the failing request is issued once (no retry).  Stated for
the API-style loop (pages 1..k-1 full, page k fails) and the store-style loop
(offsets 0..(k-1)·limit non-empty, offset k·limit fails). -/
theorem page_failure_aborts_fetch :
    (∀ (α : Type) (pages : Nat → Except String (List α)) (P : Int) (k : Nat) (e : String),
      1 ≤ k →
      (∀ m, 1 ≤ m → m < k → ∃ l, pages m = .ok l ∧ ¬((l.length : Int) < P)) →
      pages k = .error e →
      ∀ fuel, k ≤ fuel → hgLoopAux pages P fuel 1 [] = some (.error e))
    ∧ (∀ (α : Type) (exec_ : Nat → Except String (List α)) (limit k : Nat) (e : String),
      (∀ i, i < k → ∃ l, exec_ (i * limit) = .ok l ∧ l ≠ []) →
      exec_ (k * limit) = .error e →
      ∀ fuel, k + 1 ≤ fuel → storeLoopAux exec_ limit fuel 0 [] = some (.error e)) := by
  constructor
  · intro α pages P k e hk hfull herr fuel hfuel
    exact hgLoop_error_reach pages P k e hfull herr fuel 1 [] (by omega) hk (by omega)
  · intro α exec_ limit k e hfull herr fuel hfuel
    have h0 : (0 : Nat) = 0 * limit := (Nat.zero_mul limit).symm
    rw [h0]
    exact storeLoop_error_reach exec_ limit k e hfull herr fuel 0 [] (by omega) (by omega)

/-- A page oracle whose second page raises. -/
def failPagesW : Nat → Except String (List String) :=
  fun n => if n = 1 then .ok ["a"] else .error "boom"

/-- A range oracle whose second offset raises. -/
def failExecW : Nat → Except String (List String) :=
  fun off => if off = 0 then .ok ["r"] else .error "boom"

/-- C9 witness: both loops run against concrete oracles that fail on the
second request return exactly the error, discarding the first page. -/
theorem page_failure_aborts_fetch_witness :
    hgLoopAux failPagesW 1 5 1 [] = some (.error "boom")
    ∧ storeLoopAux failExecW 1000 5 0 [] = some (.error "boom") :=
  ⟨page_failure_aborts_fetch.1 String failPagesW 1 2 "boom" (by omega)
      (fun m h1 h2 => by
        have hm : m = 1 := by omega
        subst hm
        exact ⟨["a"], rfl, by decide⟩)
      rfl 5 (by omega),
    page_failure_aborts_fetch.2 String failExecW 1000 1 "boom"
      (fun i hi => by
        have hi0 : i = 0 := by omega
        subst hi0
        exact ⟨["r"], rfl, by decide⟩)
      rfl 5 (by omega)⟩

/-! ### Page-size validation and non-termination -/

/-- C10: for page_size ≥ 1 the loops of `highergov_get_all_awards` and
`highergov_get_all_opportunities` terminate as soon as the backing API
returns a page with fewer than page_size records; for page_size ≤ 0 the
`page_size > 100` validation does not reject the call and the loop can never
terminate — `len(results) < page_size` is unsatisfiable — even when every
returned page is empty, so every fuel is exhausted. -/
theorem nonpositive_page_size_never_terminates :
    (∀ (α : Type) (apiKey : String) (pages : Nat → Except String (List α))
        (P : Int) (N : Nat),
      apiKey ≠ "" → 1 ≤ P → P ≤ 100 → 1 ≤ N →
      (∃ l, pages N = .ok l ∧ (l.length : Int) < P) →
      ∃ fuel r,
        highergov_get_all_awards apiKey pages P fuel = .ok (some r)
        ∧ highergov_get_all_opportunities apiKey pages P fuel = .ok (some r))
    ∧ (∀ (α : Type) (apiKey : String) (pages : Nat → Except String (List α)) (P : Int),
      P ≤ 0 → apiKey ≠ "" → (∀ n, ∃ l, pages n = .ok l) →
      ∀ fuel,
        highergov_get_all_awards apiKey pages P fuel = .ok none
        ∧ highergov_get_all_opportunities apiKey pages P fuel = .ok none) := by
  constructor
  · rintro α apiKey pages P N hkey hP hP100 hN ⟨l, hl, hshort⟩
    have hsome : (hgLoopAux pages P ((N - 1) + 1) 1 []).isSome = true := by
      refine hgLoop_isSome_of_stop pages P (N - 1) 1 [] ?_
      have hidx : 1 + (N - 1) = N := by omega
      rw [hidx, hl]
      exact hshort
    obtain ⟨r, hr⟩ := Option.isSome_iff_exists.1 hsome
    refine ⟨(N - 1) + 1, r, ?_, ?_⟩
    · rw [highergov_get_all_awards, if_neg hkey, if_neg (by omega), hr]
    · rw [highergov_get_all_opportunities, if_neg hkey, if_neg (by omega), hr]
  · intro α apiKey pages P hP hkey hok fuel
    have hloop := hgLoop_none_of_nonpos pages P hP hok fuel 1 []
    constructor
    · rw [highergov_get_all_awards, if_neg hkey, if_neg (by omega), hloop]
    · rw [highergov_get_all_opportunities, if_neg hkey, if_neg (by omega), hloop]

/-- C10 witness: against an API that always serves empty pages, page size 1
terminates on the first (short) page while page size 0 — accepted by the
`page_size > 100` validation — exhausts any fuel. -/
theorem nonpositive_page_size_never_terminates_witness :
    (∃ fuel r,
      highergov_get_all_awards "key" (fun _ => .ok ([] : List Nat)) 1 fuel = .ok (some r)
      ∧ highergov_get_all_opportunities "key" (fun _ => .ok ([] : List Nat)) 1 fuel
        = .ok (some r))
    ∧ (highergov_get_all_awards "key" (fun _ => .ok ([] : List Nat)) 0 7 = .ok none
      ∧ highergov_get_all_opportunities "key" (fun _ => .ok ([] : List Nat)) 0 7 = .ok none) :=
  ⟨nonpositive_page_size_never_terminates.1 Nat "key" (fun _ => .ok []) 1 1
      (by decide) (by omega) (by omega) (by omega) ⟨[], rfl, by decide⟩,
    nonpositive_page_size_never_terminates.2 Nat "key" (fun _ => .ok []) 0
      (by omega) (by decide) (fun _ => ⟨[], rfl⟩) 7⟩

end Prosal
